import Mathlib

/-!
Verification of the attempt-engine of an online quiz platform.

The development shallowly embeds the JavaScript attempt engine:
the controller functions `startQuizAttempt`, `submitQuizAttempt` and
`gradeAttempt` (controllers/attemptController.mjs, final revision) and the
persistence-layer functions they call (models/attempts.mjs,
models/questions.mjs, models/reports.mjs).  The database is modelled as an
explicit record of rows, SQL statements as list filters/maps, and the JSON
values that flow through grading as an inductive type `Jval` together with a
model of `JSON.stringify`.
-/

namespace QuizPlatform

/-- JSON values as they occur in submitted answers and stored
`correct_answer` columns: `null`, booleans, (integral) numbers, strings, and
arrays of strings (multi-select answers are arrays of strings in this
data model of this system).  Models the dynamic JS values handled by the grading
loop. -/
inductive Jval : Type
  | null : Jval
  | bool : Bool → Jval
  | num  : Int → Jval
  | str  : String → Jval
  | arr  : List String → Jval
deriving DecidableEq, Repr

/-- `JSON.stringify` escaping of a single character inside a string literal
(quote and backslash are escaped with a backslash; other characters are kept
as-is). -/
def escChar (c : Char) : List Char :=
  if c = '"' ∨ c = '\\' then ['\\', c] else [c]

/-- Escape every character of a string body, as `JSON.stringify` does. -/
def escapeChars (cs : List Char) : List Char :=
  (cs.map escChar).flatten

/-- `JSON.stringify` of a string: a double-quoted, escaped literal. -/
def quoteStr (s : String) : String :=
  String.mk ('"' :: (escapeChars s.data ++ ['"']))

/-- Decimal rendering of a natural number (the digit string produced by
`JSON.stringify` for a non-negative integral number). -/
def natRepr (n : Nat) : String :=
  if n = 0 then "0" else String.mk (((Nat.digits 10 n).map Nat.digitChar).reverse)

/-- Decimal rendering of an integer, with a leading minus sign when
negative. -/
def intRepr : Int → String
  | Int.ofNat n => natRepr n
  | Int.negSucc n => String.mk ('-' :: (natRepr (n + 1)).data)

/-- Model of `JSON.stringify` on the `Jval` domain. -/
def stringify : Jval → String
  | Jval.null => "null"
  | Jval.bool true => "true"
  | Jval.bool false => "false"
  | Jval.num n => intRepr n
  | Jval.str s => quoteStr s
  | Jval.arr l => String.mk ('[' :: ((String.intercalate "," (l.map quoteStr)).data ++ [']']))

/-- Lexicographic less-or-equal on character lists, comparing code points —
the string order used by the default `Array.prototype.sort()` of JavaScript. -/
def lexLe : List Char → List Char → Bool
  | [], _ => true
  | _ :: _, [] => false
  | a :: as, b :: bs =>
      if a.toNat < b.toNat then true
      else if b.toNat < a.toNat then false
      else lexLe as bs

/-- Lexicographic less-or-equal on strings. -/
def strLe (a b : String) : Bool :=
  lexLe a.data b.data

/-- The default `Array.prototype.sort()` of JavaScript on an array of strings:
lexicographic ascending order.  (Modelled with insertion sort; on a total
order any comparison sort produces the same sorted list.) -/
def sortStrings (l : List String) : List String :=
  l.insertionSort (fun a b => strLe a b = true)

/-- `Array.isArray` on the `Jval` domain. -/
def isArr : Jval → Bool
  | Jval.arr _ => true
  | _ => false

/-- The per-question match decision from the grading loop of
`submitQuizAttempt`: if both the submitted answer and `correct_answer` are
arrays, both are sorted and their `JSON.stringify` forms compared; otherwise
the `JSON.stringify` forms of the raw values are compared.  A missing
submitted answer (`answers[q.id]` is `undefined`) is modelled as `none`;
`JSON.stringify(undefined)` is `undefined`, which never equals the string
produced for the stored `correct_answer`. -/
def gradeMatch (userAnswer : Option Jval) (correct : Jval) : Bool :=
  match userAnswer, correct with
  | some (Jval.arr u), Jval.arr c =>
      stringify (Jval.arr (sortStrings u)) == stringify (Jval.arr (sortStrings c))
  | _, _ => (userAnswer.map stringify) == some (stringify correct)

/-- The weight `q.points || 1` added on a match: any falsy `points` value
(absent, `null`, or `0`) yields the default 1. -/
def pointsOr1 : Option Int → Int
  | none => 1
  | some p => if p = 0 then 1 else p

/-- A row of the `questions` table, with the fields read by the grading
loop. -/
structure Question : Type where
  id : Nat
  quiz_id : Nat
  correct_answer : Jval
  points : Option Int
deriving DecidableEq, Repr

/-- The `answers` mapping of the request body from question id to submitted
answer (a JS object, modelled as an association list). -/
abbrev Answers : Type := List (Nat × Jval)

/-- `answers[q.id]`: the submitted answer for a question id, `none` when the
key is absent. -/
def lookupAnswer (answers : Answers) (qid : Nat) : Option Jval :=
  (answers.find? (fun p => p.fst == qid)).map Prod.snd

/-- The auto-grading loop of `submitQuizAttempt`: starting from 0, add
`q.points || 1` for every question whose submitted answer matches its
`correct_answer`. -/
def computeScore (questions : List Question) (answers : Answers) : Int :=
  questions.foldl
    (fun score q =>
      if gradeMatch (lookupAnswer answers q.id) q.correct_answer then
        score + pointsOr1 q.points
      else score)
    0

/-- A row of the `quizzes` table, with the columns the attempt engine
reads.  `time_limit` is in minutes (`NULL` means unlimited);
`attempts_allowed` is the per-user quota (`NULL` means unlimited). -/
structure Quiz : Type where
  id : Nat
  title : String
  time_limit : Option Int
  attempts_allowed : Option Nat
deriving DecidableEq, Repr

/-- A row of the `attempts` table.  Timestamps are in milliseconds (the unit
underlying the JS `Date` arithmetic in the controller). -/
structure Attempt : Type where
  id : Nat
  quiz_id : Nat
  user_id : Nat
  start_time : Nat
  submitted_at : Option Nat
  answers : Option Answers
  score : Option Int
deriving DecidableEq, Repr

/-- A row of the `users` table (the fields joined into reports). -/
structure User : Type where
  id : Nat
  username : String
deriving DecidableEq, Repr

/-- The database state the attempt engine reads and writes. -/
structure DB : Type where
  quizzes : List Quiz
  questions : List Question
  attempts : List Attempt
  users : List User
deriving DecidableEq, Repr

/-- `SELECT ... FROM quizzes WHERE id = $1` (first matching row). -/
def findQuiz (db : DB) (quizId : Nat) : Option Quiz :=
  db.quizzes.find? (fun q => q.id == quizId)

/-- `SELECT ... FROM attempts WHERE id = $1` (first matching row). -/
def findAttempt (db : DB) (attemptId : Nat) : Option Attempt :=
  db.attempts.find? (fun a => a.id == attemptId)

/-- `SELECT ... FROM users WHERE id = $1` (first matching row, used for
joins). -/
def findUser (db : DB) (userId : Nat) : Option User :=
  db.users.find? (fun u => u.id == userId)

/-- Model of `getQuizAttemptsAllowed`: `SELECT attempts_allowed FROM quizzes
WHERE id = $1`. -/
def getQuizAttemptsAllowed (db : DB) (quizId : Nat) : Option (Option Nat) :=
  (findQuiz db quizId).map Quiz.attempts_allowed

/-- Model of `countAttemptsByUser`: `SELECT COUNT(*) FROM attempts WHERE
user_id = $1 AND quiz_id = $2` — all attempts count, submitted or not. -/
def countAttemptsByUser (db : DB) (userId quizId : Nat) : Nat :=
  (db.attempts.filter (fun a => a.user_id == userId && a.quiz_id == quizId)).length

/-- Model of `getQuestionsByQuizId`: `SELECT * FROM questions WHERE
quiz_id = $1`. -/
def getQuestionsByQuizId (db : DB) (quizId : Nat) : List Question :=
  db.questions.filter (fun q => q.quiz_id == quizId)

/-- Model of `startAttempt`: `INSERT INTO attempts (quiz_id, user_id,
start_time) VALUES ($1,$2,NOW()) RETURNING *`.  `now` is the server clock
and `newId` the id the database assigns to the inserted row. -/
def startAttempt (db : DB) (quizId userId now newId : Nat) : DB × Attempt :=
  let a : Attempt :=
    { id := newId, quiz_id := quizId, user_id := userId, start_time := now,
      submitted_at := none, answers := none, score := none }
  ({ db with attempts := db.attempts ++ [a] }, a)

/-- Model of `getAttemptWithQuizLimit`: `SELECT a.start_time, q.time_limit,
a.quiz_id FROM attempts a JOIN quizzes q ON a.quiz_id = q.id WHERE
a.id = $1` — `none` when the attempt (or its quiz, dropped by the inner
join) does not exist. -/
def getAttemptWithQuizLimit (db : DB) (attemptId : Nat) :
    Option (Nat × Option Int × Nat) :=
  match findAttempt db attemptId with
  | none => none
  | some a =>
      match findQuiz db a.quiz_id with
      | none => none
      | some q => some (a.start_time, q.time_limit, a.quiz_id)

/-- Model of `submitAttempt`: `UPDATE attempts SET answers=$1, score=$2,
submitted_at=NOW() WHERE id=$3 RETURNING *`.  The update is unconditional on
the current `submitted_at` of the row. -/
def submitAttempt (db : DB) (attemptId : Nat) (answers : Answers)
    (autoScore : Int) (now : Nat) : DB × Option Attempt :=
  let db2 : DB :=
    { db with
      attempts := db.attempts.map (fun a =>
        if a.id == attemptId then
          { a with answers := some answers, score := some autoScore,
                   submitted_at := some now }
        else a) }
  (db2, findAttempt db2 attemptId)

/-- Model of `updateAttemptScore`: `UPDATE attempts SET score = $1 WHERE
id = $2 RETURNING *` — only `score` is written. -/
def updateAttemptScore (db : DB) (attemptId : Nat) (score : Int) :
    DB × Option Attempt :=
  let db2 : DB :=
    { db with
      attempts := db.attempts.map (fun a =>
        if a.id == attemptId then { a with score := some score } else a) }
  (db2, findAttempt db2 attemptId)

/-- JavaScript truthiness of an optional number: `null`/`undefined` and `0`
are falsy. -/
def truthyNat : Option Nat → Bool
  | none => false
  | some n => n != 0

/-- JavaScript truthiness of an optional integer: `null`/`undefined` and `0`
are falsy. -/
def truthyInt : Option Int → Bool
  | none => false
  | some n => n != 0

/-- Outcome of the `startQuizAttempt` controller: HTTP 404, HTTP 403
(quota), or HTTP 201 with the created attempt. -/
inductive StartResult : Type
  | notFound : StartResult
  | quotaExceeded : StartResult
  | started : Attempt → StartResult
deriving DecidableEq, Repr

/-- Controller `startQuizAttempt` (final revision): look up the
`attempts_allowed` of the quiz (404 when the quiz is missing), count the existing
attempts of the user for the quiz, reject with 403 when the quota is truthy and reached
(`attemptsAllowed && attemptCount >= attemptsAllowed`), otherwise insert a
new attempt row. -/
def startQuizAttempt (db : DB) (quizId userId now newId : Nat) :
    StartResult × DB :=
  match findQuiz db quizId with
  | none => (StartResult.notFound, db)
  | some quiz =>
      let attemptCount := countAttemptsByUser db userId quizId
      if truthyNat quiz.attempts_allowed
          && decide (quiz.attempts_allowed.getD 0 ≤ attemptCount) then
        (StartResult.quotaExceeded, db)
      else
        let r := startAttempt db quizId userId now newId
        (StartResult.started r.2, r.1)

/-- Outcome of the `submitQuizAttempt` controller: HTTP 404, HTTP 403 (time
limit), or HTTP 200 with the `RETURNING` row of the update. -/
inductive SubmitResult : Type
  | notFound : SubmitResult
  | timeLimitExceeded : SubmitResult
  | submitted : Option Attempt → SubmitResult
deriving DecidableEq, Repr

/-- Controller `submitQuizAttempt` (final revision): load `start_time`,
`time_limit`, `quiz_id` (404 when missing); when `time_limit` is truthy and
`(now - startTime) / (1000 * 60) > time_limit`, reject with 403 and write
nothing (the division is exact over the rationals, so the comparison is
modelled as `time_limit * 60000 < now - startTime` in milliseconds);
otherwise auto-grade against the questions of the quiz and persist `answers`,
`score`, `submitted_at` in one update. -/
def submitQuizAttempt (db : DB) (attemptId : Nat) (answers : Answers)
    (now : Nat) : SubmitResult × DB :=
  match getAttemptWithQuizLimit db attemptId with
  | none => (SubmitResult.notFound, db)
  | some (start_time, time_limit, quiz_id) =>
      if truthyInt time_limit
          && decide (time_limit.getD 0 * 60000 < (now : Int) - (start_time : Int)) then
        (SubmitResult.timeLimitExceeded, db)
      else
        let questions := getQuestionsByQuizId db quiz_id
        let score := computeScore questions answers
        let r := submitAttempt db attemptId answers score now
        (SubmitResult.submitted r.2, r.1)

/-- Outcome of the `gradeAttempt` controller: HTTP 400, HTTP 404, or HTTP
200 with the updated attempt. -/
inductive GradeResult : Type
  | invalidInput : GradeResult
  | notFound : GradeResult
  | updated : Attempt → GradeResult
deriving DecidableEq, Repr

/-- Controller `gradeAttempt` (manual grade override): reject with 400 only
when `score` is `undefined` or `null` (modelled as `none`); otherwise run
`updateAttemptScore` and reject with 404 when no row was returned.  No sign
check is performed on the score. -/
def gradeAttempt (db : DB) (attemptId : Nat) (score : Option Int) :
    GradeResult × DB :=
  match score with
  | none => (GradeResult.invalidInput, db)
  | some s =>
      let r := updateAttemptScore db attemptId s
      match r.2 with
      | none => (GradeResult.notFound, r.1)
      | some a => (GradeResult.updated a, r.1)

/-- A row of the per-quiz leaderboard (`getQuizLeaderboard`). -/
structure LeaderboardRow : Type where
  username : String
  score : Option Int
deriving DecidableEq, Repr

/-- Model of `getQuizLeaderboard`: `SELECT u.username, a.score FROM attempts
a JOIN users u ON u.id = a.user_id WHERE a.quiz_id=$1 ORDER BY a.score
DESC`.  There is no `submitted_at` filter.  The `ORDER BY` only permutes
rows; it is not modelled since the claims about this query concern
membership. -/
def getQuizLeaderboard (db : DB) (quizId : Nat) : List LeaderboardRow :=
  (db.attempts.filter (fun a => a.quiz_id == quizId)).filterMap
    (fun a => (findUser db a.user_id).map
      (fun u => { username := u.username, score := a.score }))

/-- The aggregate row of `getQuizAnalytics`. -/
structure Analytics : Type where
  total_attempts : Nat
  avg_score : Option ℚ
deriving DecidableEq, Repr

/-- Model of `getQuizAnalytics`: `SELECT COUNT(*) AS total_attempts,
AVG(score) AS avg_score FROM attempts WHERE quiz_id=$1`.  `COUNT(*)` counts
every attempt of the quiz (no `submitted_at` filter); `AVG` averages the
non-`NULL` scores and is `NULL` when there are none. -/
def getQuizAnalytics (db : DB) (quizId : Nat) : Analytics :=
  let rows := db.attempts.filter (fun a => a.quiz_id == quizId)
  let scores := rows.filterMap Attempt.score
  { total_attempts := rows.length,
    avg_score :=
      if scores.length = 0 then none
      else some ((scores.map (fun s => (s : ℚ))).sum / (scores.length : ℚ)) }

/-- A row of the per-user report (`getUserReport`). -/
structure ReportRow : Type where
  quiz : String
  score : Option Int
  submitted_at : Option Nat
  quiz_id : Nat
  total_questions : Nat
deriving DecidableEq, Repr

/-- Model of `getUserReport`: attempts of the user joined with their quiz,
restricted to `a.submitted_at IS NOT NULL`, each row carrying the quiz title
and the question count of the quiz.  The `ORDER BY submitted_at DESC` only
permutes rows and is not modelled. -/
def getUserReport (db : DB) (userId : Nat) : List ReportRow :=
  (db.attempts.filter (fun a => a.user_id == userId && a.submitted_at.isSome)).filterMap
    (fun a => (findQuiz db a.quiz_id).map
      (fun q =>
        { quiz := q.title, score := a.score, submitted_at := a.submitted_at,
          quiz_id := a.quiz_id,
          total_questions := (getQuestionsByQuizId db a.quiz_id).length }))

/-- Model of `getAttemptsByUser` (final revision of models/attempts.mjs):
`SELECT a.*, (question count) FROM attempts a WHERE a.user_id = $1 AND
a.submitted_at IS NOT NULL ORDER BY a.submitted_at DESC` — the own-attempts listing of the caller, submitted rows only.  The `ORDER BY` is not modelled. -/
def getAttemptsByUser (db : DB) (userId : Nat) : List (Attempt × Nat) :=
  (db.attempts.filter (fun a => a.user_id == userId && a.submitted_at.isSome)).map
    (fun a => (a, (getQuestionsByQuizId db a.quiz_id).length))

/-! ### Properties of the lexicographic string order used by the sort -/

/-- Two characters with the same code point are equal. -/
theorem char_toNat_inj (a b : Char) (h : a.toNat = b.toNat) : a = b :=
  Char.eq_of_val_eq (UInt32.eq_of_toBitVec_eq (BitVec.eq_of_toNat_eq h))

/-- `lexLe` is total. -/
theorem lexLe_total : ∀ as bs : List Char, lexLe as bs = true ∨ lexLe bs as = true := by
  intro as
  induction as with
  | nil => intro bs; left; rfl
  | cons a as ih =>
    intro bs
    cases bs with
    | nil => right; rfl
    | cons b bs =>
      by_cases h1 : a.toNat < b.toNat
      · left; simp [lexLe, h1]
      · by_cases h2 : b.toNat < a.toNat
        · right; simp [lexLe, h2]
        · rcases ih bs with h | h
          · left; simp [lexLe, h1, h2, h]
          · right; simp [lexLe, h1, h2, h]

/-- `lexLe` is transitive. -/
theorem lexLe_trans :
    ∀ as bs cs : List Char, lexLe as bs = true → lexLe bs cs = true → lexLe as cs = true := by
  intro as
  induction as with
  | nil => intro bs cs _ _; rfl
  | cons a as ih =>
    intro bs cs h1 h2
    cases bs with
    | nil => simp [lexLe] at h1
    | cons b bs =>
      cases cs with
      | nil => simp [lexLe] at h2
      | cons c cs =>
        simp only [lexLe] at h1 h2 ⊢
        by_cases hab : a.toNat < b.toNat
        · by_cases hbc : b.toNat < c.toNat
          · simp [Nat.lt_trans hab hbc]
          · by_cases hcb : c.toNat < b.toNat
            · simp [hbc, hcb] at h2
            · have hbc' : b.toNat = c.toNat := Nat.le_antisymm (Nat.le_of_not_lt hcb) (Nat.le_of_not_lt hbc)
              have hac : a.toNat < c.toNat := hbc' ▸ hab
              simp [hac]
        · by_cases hba : b.toNat < a.toNat
          · simp [hab, hba] at h1
          · have hab' : a.toNat = b.toNat := Nat.le_antisymm (Nat.le_of_not_lt hba) (Nat.le_of_not_lt hab)
            simp [hab, hba] at h1
            by_cases hbc : b.toNat < c.toNat
            · simp [hab' ▸ hbc]
            · by_cases hcb : c.toNat < b.toNat
              · simp [hbc, hcb] at h2
              · have hbc' : b.toNat = c.toNat := Nat.le_antisymm (Nat.le_of_not_lt hcb) (Nat.le_of_not_lt hbc)
                have hac : ¬ a.toNat < c.toNat := by omega
                have hca : ¬ c.toNat < a.toNat := by omega
                simp [hbc, hcb] at h2
                simp [hac, hca]
                exact ih bs cs h1 h2

/-- `lexLe` is antisymmetric. -/
theorem lexLe_antisymm :
    ∀ as bs : List Char, lexLe as bs = true → lexLe bs as = true → as = bs := by
  intro as
  induction as with
  | nil =>
    intro bs _ h2
    cases bs with
    | nil => rfl
    | cons b bs => simp [lexLe] at h2
  | cons a as ih =>
    intro bs h1 h2
    cases bs with
    | nil => simp [lexLe] at h1
    | cons b bs =>
      simp only [lexLe] at h1 h2
      by_cases hab : a.toNat < b.toNat
      · have hba : ¬ b.toNat < a.toNat := by omega
        simp [hab, hba] at h2
      · by_cases hba : b.toNat < a.toNat
        · simp [hab, hba] at h1
        · simp [hab, hba] at h1 h2
          have : a = b := char_toNat_inj a b (by omega)
          rw [this, ih bs h1 h2]

/-- The sorting relation is total. -/
instance : IsTotal String (fun a b => strLe a b = true) :=
  ⟨fun a b => lexLe_total a.data b.data⟩

/-- The sorting relation is transitive. -/
instance : IsTrans String (fun a b => strLe a b = true) :=
  ⟨fun a b c h1 h2 => lexLe_trans a.data b.data c.data h1 h2⟩

/-- The sorting relation is antisymmetric. -/
instance : IsAntisymm String (fun a b => strLe a b = true) := by
  constructor
  intro a b h1 h2
  cases a with
  | mk da =>
    cases b with
    | mk db => exact congrArg String.mk (lexLe_antisymm da db h1 h2)

/-- Sorting is invariant under permutation of the input: the sort output is
the canonical sorted arrangement. -/
theorem sortStrings_eq_of_perm {l₁ l₂ : List String} (h : l₁.Perm l₂) :
    sortStrings l₁ = sortStrings l₂ := by
  apply List.eq_of_perm_of_sorted (r := fun a b => strLe a b = true)
  · exact (List.perm_insertionSort _ l₁).trans (h.trans (List.perm_insertionSort _ l₂).symm)
  · exact List.sorted_insertionSort _ l₁
  · exact List.sorted_insertionSort _ l₂

/-! ### Injectivity of the serialization on non-array values -/

/-- Strings with equal character data are equal. -/
theorem string_data_inj (s t : String) (h : s.data = t.data) : s = t := by
  cases s with
  | mk ds =>
    cases t with
    | mk dt => exact congrArg String.mk h

/-- Unfolding of `natRepr` at zero. -/
theorem natRepr_zero : natRepr 0 = "0" := rfl

/-- Unfolding of `natRepr` away from zero. -/
theorem natRepr_of_ne (n : Nat) (h : n ≠ 0) :
    natRepr n = String.mk (((Nat.digits 10 n).map Nat.digitChar).reverse) := by
  simp [natRepr, h]

/-- `Nat.digitChar` is injective below 10. -/
theorem digitChar_fin_inj : ∀ a b : Fin 10, Nat.digitChar a.val = Nat.digitChar b.val → a = b := by
  decide

/-- `Nat.digitChar` yields digit characters below 10. -/
theorem digitChar_fin_isDigit : ∀ d : Fin 10, (Nat.digitChar d.val).isDigit = true := by
  decide

/-- Mapping `Nat.digitChar` over lists of digits is injective. -/
theorem map_digitChar_inj :
    ∀ l₁ l₂ : List Nat, (∀ x ∈ l₁, x < 10) → (∀ x ∈ l₂, x < 10) →
      l₁.map Nat.digitChar = l₂.map Nat.digitChar → l₁ = l₂ := by
  intro l₁
  induction l₁ with
  | nil =>
    intro l₂ _ _ h
    cases l₂ with
    | nil => rfl
    | cons b bs => simp at h
  | cons a as ih =>
    intro l₂ h₁ h₂ h
    cases l₂ with
    | nil => simp at h
    | cons b bs =>
      simp only [List.map_cons, List.cons.injEq] at h
      have ha : a < 10 := h₁ a (by simp)
      have hb : b < 10 := h₂ b (by simp)
      have hfin : (⟨a, ha⟩ : Fin 10) = ⟨b, hb⟩ := digitChar_fin_inj _ _ h.1
      have hab : a = b := congrArg Fin.val hfin
      rw [hab, ih bs (fun x hx => h₁ x (by simp [hx])) (fun x hx => h₂ x (by simp [hx])) h.2]

/-- Every character of `natRepr n` is a digit. -/
theorem natRepr_chars (n : Nat) : ∀ c ∈ (natRepr n).data, c.isDigit = true := by
  intro c hc
  by_cases h : n = 0
  · subst h
    rw [natRepr_zero] at hc
    have hc' : c ∈ ['0'] := hc
    simp at hc'
    simp [hc']
  · rw [natRepr_of_ne n h] at hc
    have hc' : c ∈ ((Nat.digits 10 n).map Nat.digitChar).reverse := hc
    rw [List.mem_reverse] at hc'
    obtain ⟨d, hd, rfl⟩ := List.mem_map.mp hc'
    have hdlt : d < 10 := Nat.digits_lt_base (by norm_num) hd
    exact digitChar_fin_isDigit ⟨d, hdlt⟩

/-- Only the zero numeral maps to the digit string of zero. -/
theorem natRepr_eq_zero_repr (m : Nat) (hm : m ≠ 0)
    (h : ("0" : String) = natRepr m) : False := by
  rw [natRepr_of_ne m hm] at h
  have hd : (['0'] : List Char) = ((Nat.digits 10 m).map Nat.digitChar).reverse :=
    congrArg String.data h
  have hrev : (Nat.digits 10 m).map Nat.digitChar = ['0'] := by
    simpa using congrArg List.reverse hd.symm
  have hone : Nat.digits 10 m = [0] := by
    cases hdig : Nat.digits 10 m with
    | nil => rw [hdig] at hrev; simp at hrev
    | cons d ds =>
      rw [hdig] at hrev
      simp only [List.map_cons, List.cons.injEq] at hrev
      have hds : ds = [] := by simpa using hrev.2
      subst hds
      have hdlt : d < 10 := Nat.digits_lt_base (by norm_num) (by rw [hdig]; simp)
      have hfin : (⟨d, hdlt⟩ : Fin 10) = ⟨0, by norm_num⟩ := by
        apply digitChar_fin_inj
        simpa using hrev.1
      have hd0 : d = 0 := congrArg Fin.val hfin
      rw [hd0]
  have hm0 : m = 0 := by
    have hm' := Nat.ofDigits_digits 10 m
    rw [hone] at hm'
    simpa [Nat.ofDigits] using hm'.symm
  exact hm hm0

/-- Decimal rendering of naturals is injective. -/
theorem natRepr_inj (n m : Nat) (h : natRepr n = natRepr m) : n = m := by
  by_cases hn : n = 0 <;> by_cases hm : m = 0
  · rw [hn, hm]
  · exfalso
    subst hn
    rw [natRepr_zero] at h
    exact natRepr_eq_zero_repr m hm h
  · exfalso
    subst hm
    rw [natRepr_zero] at h
    exact natRepr_eq_zero_repr n hn h.symm
  · rw [natRepr_of_ne n hn, natRepr_of_ne m hm] at h
    have hd : ((Nat.digits 10 n).map Nat.digitChar).reverse
        = ((Nat.digits 10 m).map Nat.digitChar).reverse := congrArg String.data h
    have hmaps := List.reverse_injective hd
    have hdig := map_digitChar_inj (Nat.digits 10 n) (Nat.digits 10 m)
      (fun x hx => Nat.digits_lt_base (by norm_num) hx)
      (fun x hx => Nat.digits_lt_base (by norm_num) hx) hmaps
    have hn' := Nat.ofDigits_digits 10 n
    rw [hdig, Nat.ofDigits_digits] at hn'
    exact hn'.symm

/-- Every character of `intRepr i` is a digit or the minus sign. -/
theorem intRepr_chars (i : Int) : ∀ c ∈ (intRepr i).data, (c.isDigit || c == '-') = true := by
  intro c hc
  cases i with
  | ofNat n =>
    have hdig := natRepr_chars n c hc
    simp [hdig]
  | negSucc n =>
    have hc' : c ∈ '-' :: (natRepr (n + 1)).data := hc
    rcases List.mem_cons.mp hc' with h | h
    · simp [h]
    · have hdig := natRepr_chars (n + 1) c h
      simp [hdig]

/-- A character of `intRepr i` that is neither a digit nor the minus sign is
impossible. -/
theorem intRepr_no_alpha (i : Int) (c : Char) (hc : c ∈ (intRepr i).data)
    (h1 : c.isDigit = false) (h2 : (c == '-') = false) : False := by
  have hall := intRepr_chars i c hc
  simp [h1, h2] at hall

/-- Decimal rendering of integers is injective. -/
theorem intRepr_inj (i j : Int) (h : intRepr i = intRepr j) : i = j := by
  cases i with
  | ofNat n =>
    cases j with
    | ofNat m => exact congrArg Int.ofNat (natRepr_inj n m h)
    | negSucc m =>
      exfalso
      have hd : (intRepr (Int.ofNat n)).data = '-' :: (natRepr (m + 1)).data :=
        congrArg String.data h
      have hmem : '-' ∈ (intRepr (Int.ofNat n)).data := by
        rw [hd]
        exact List.mem_cons_self _ _
      have hdig := natRepr_chars n '-' hmem
      simp at hdig
  | negSucc n =>
    cases j with
    | ofNat m =>
      exfalso
      have hd : '-' :: (natRepr (n + 1)).data = (intRepr (Int.ofNat m)).data :=
        congrArg String.data h
      have hmem : '-' ∈ (intRepr (Int.ofNat m)).data := by
        rw [← hd]
        exact List.mem_cons_self _ _
      have hdig := natRepr_chars m '-' hmem
      simp at hdig
    | negSucc m =>
      have hd : '-' :: (natRepr (n + 1)).data = '-' :: (natRepr (m + 1)).data :=
        congrArg String.data h
      simp only [List.cons.injEq, true_and] at hd
      have hrepr : natRepr (n + 1) = natRepr (m + 1) := string_data_inj _ _ hd
      have hnm := natRepr_inj _ _ hrepr
      have : n = m := by omega
      rw [this]

/-- Unfolding of the escape map on a head character. -/
theorem escapeChars_cons (c : Char) (cs : List Char) :
    escapeChars (c :: cs) = escChar c ++ escapeChars cs := by
  simp [escapeChars]

/-- The escape map of a string body is injective (the escape code is
prefix-free). -/
theorem escapeChars_inj : ∀ l₁ l₂ : List Char, escapeChars l₁ = escapeChars l₂ → l₁ = l₂ := by
  intro l₁
  induction l₁ with
  | nil =>
    intro l₂ h
    cases l₂ with
    | nil => rfl
    | cons b bs =>
      exfalso
      rw [escapeChars_cons] at h
      by_cases hb : b = '"' ∨ b = '\\' <;>
        simp [escapeChars, escChar, hb] at h
  | cons a as ih =>
    intro l₂ h
    cases l₂ with
    | nil =>
      exfalso
      rw [escapeChars_cons] at h
      by_cases ha : a = '"' ∨ a = '\\' <;>
        simp [escapeChars, escChar, ha] at h
    | cons b bs =>
      rw [escapeChars_cons, escapeChars_cons] at h
      by_cases ha : a = '"' ∨ a = '\\' <;> by_cases hb : b = '"' ∨ b = '\\'
      · simp only [escChar, if_pos ha, if_pos hb, List.cons_append, List.cons.injEq] at h
        rw [h.2.1, ih bs h.2.2]
      · exfalso
        simp only [escChar, if_pos ha, if_neg hb, List.cons_append, List.cons.injEq] at h
        exact hb (Or.inr h.1.symm)
      · exfalso
        simp only [escChar, if_neg ha, if_pos hb, List.cons_append, List.cons.injEq] at h
        exact ha (Or.inr h.1)
      · simp only [escChar, if_neg ha, if_neg hb, List.cons_append, List.cons.injEq] at h
        rw [h.1, ih bs h.2]

/-- The character data of a quoted string literal. -/
theorem quoteStr_data (s : String) :
    (quoteStr s).data = '"' :: (escapeChars s.data ++ ['"']) := rfl

/-- Quoted string literals are injective. -/
theorem quoteStr_inj (s t : String) (h : quoteStr s = quoteStr t) : s = t := by
  have hd := congrArg String.data h
  rw [quoteStr_data, quoteStr_data] at hd
  simp only [List.cons.injEq, true_and] at hd
  have hesc := List.append_cancel_right hd
  exact string_data_inj s t (escapeChars_inj _ _ hesc)

/-- On non-array values the serialization is injective: equal `stringify`
outputs force equal values, so the string-comparison of serialized forms
decides exactly structural equality. -/
theorem stringify_inj_nonArr :
    ∀ a b : Jval, isArr a = false → isArr b = false →
      stringify a = stringify b → a = b := by
  intro a b ha hb h
  cases a with
  | null =>
    cases b with
    | null => rfl
    | bool v => cases v <;> exact absurd h (by decide)
    | num j =>
      exfalso
      have h' : ("null" : String) = intRepr j := h
      have hd := congrArg String.data h'
      have hmem : 'n' ∈ ("null" : String).data := by decide
      rw [hd] at hmem
      exact intRepr_no_alpha j 'n' hmem (by decide) (by decide)
    | str s =>
      exfalso
      have hd : ('n' :: ['u', 'l', 'l'] : List Char)
          = '"' :: (escapeChars s.data ++ ['"']) := congrArg String.data h
      injection hd with h1 _
      exact absurd h1 (by decide)
    | arr l => simp [isArr] at hb
  | bool v =>
    cases b with
    | null => cases v <;> exact absurd h (by decide)
    | bool w => cases v <;> cases w <;> first | rfl | exact absurd h (by decide)
    | num j =>
      exfalso
      cases v with
      | false =>
        have h' : ("false" : String) = intRepr j := h
        have hd := congrArg String.data h'
        have hmem : 'f' ∈ ("false" : String).data := by decide
        rw [hd] at hmem
        exact intRepr_no_alpha j 'f' hmem (by decide) (by decide)
      | true =>
        have h' : ("true" : String) = intRepr j := h
        have hd := congrArg String.data h'
        have hmem : 't' ∈ ("true" : String).data := by decide
        rw [hd] at hmem
        exact intRepr_no_alpha j 't' hmem (by decide) (by decide)
    | str s =>
      exfalso
      cases v with
      | false =>
        have hd : ('f' :: ['a', 'l', 's', 'e'] : List Char)
            = '"' :: (escapeChars s.data ++ ['"']) := congrArg String.data h
        injection hd with h1 _
        exact absurd h1 (by decide)
      | true =>
        have hd : ('t' :: ['r', 'u', 'e'] : List Char)
            = '"' :: (escapeChars s.data ++ ['"']) := congrArg String.data h
        injection hd with h1 _
        exact absurd h1 (by decide)
    | arr l => simp [isArr] at hb
  | num i =>
    cases b with
    | null =>
      exfalso
      have h' : intRepr i = ("null" : String) := h
      have hd := congrArg String.data h'
      have hmem : 'n' ∈ ("null" : String).data := by decide
      rw [← hd] at hmem
      exact intRepr_no_alpha i 'n' hmem (by decide) (by decide)
    | bool w =>
      exfalso
      cases w with
      | false =>
        have h' : intRepr i = ("false" : String) := h
        have hd := congrArg String.data h'
        have hmem : 'f' ∈ ("false" : String).data := by decide
        rw [← hd] at hmem
        exact intRepr_no_alpha i 'f' hmem (by decide) (by decide)
      | true =>
        have h' : intRepr i = ("true" : String) := h
        have hd := congrArg String.data h'
        have hmem : 't' ∈ ("true" : String).data := by decide
        rw [← hd] at hmem
        exact intRepr_no_alpha i 't' hmem (by decide) (by decide)
    | num j => exact congrArg Jval.num (intRepr_inj i j h)
    | str s =>
      exfalso
      have hd : (intRepr i).data = '"' :: (escapeChars s.data ++ ['"']) :=
        congrArg String.data h
      have hmem : '"' ∈ (intRepr i).data := by
        rw [hd]
        exact List.mem_cons_self _ _
      exact intRepr_no_alpha i '"' hmem (by decide) (by decide)
    | arr l => simp [isArr] at hb
  | str s =>
    cases b with
    | null =>
      exfalso
      have hd : ('"' :: (escapeChars s.data ++ ['"']) : List Char)
          = 'n' :: ['u', 'l', 'l'] := congrArg String.data h
      injection hd with h1 _
      exact absurd h1 (by decide)
    | bool w =>
      exfalso
      cases w with
      | false =>
        have hd : ('"' :: (escapeChars s.data ++ ['"']) : List Char)
            = 'f' :: ['a', 'l', 's', 'e'] := congrArg String.data h
        injection hd with h1 _
        exact absurd h1 (by decide)
      | true =>
        have hd : ('"' :: (escapeChars s.data ++ ['"']) : List Char)
            = 't' :: ['r', 'u', 'e'] := congrArg String.data h
        injection hd with h1 _
        exact absurd h1 (by decide)
    | num j =>
      exfalso
      have hd : (intRepr j).data = '"' :: (escapeChars s.data ++ ['"']) :=
        (congrArg String.data h).symm
      have hmem : '"' ∈ (intRepr j).data := by
        rw [hd]
        exact List.mem_cons_self _ _
      exact intRepr_no_alpha j '"' hmem (by decide) (by decide)
    | str t => exact congrArg Jval.str (quoteStr_inj s t h)
    | arr l => simp [isArr] at hb
  | arr l => simp [isArr] at ha

/-- On a non-array submitted answer the grading loop always takes the
serialize-and-compare branch, whatever the stored correct answer is. -/
theorem gradeMatch_nonArr (a c : Jval) (ha : isArr a = false) :
    gradeMatch (some a) c = (stringify a == stringify c) := by
  cases a <;> cases c <;> first | rfl | simp [isArr] at ha

/-- A missing submitted answer never matches any stored correct answer. -/
theorem gradeMatch_none (c : Jval) : gradeMatch none c = false := by
  cases c <;> rfl

/-! ### Helper lemmas on the grading fold and the row updates -/

/-- The grading fold from an arbitrary accumulator is the accumulator plus
the per-question weights of the matched questions. -/
theorem foldl_score_eq (answers : Answers) :
    ∀ (l : List Question) (i : Int),
      l.foldl
        (fun score q =>
          if gradeMatch (lookupAnswer answers q.id) q.correct_answer then
            score + pointsOr1 q.points
          else score) i
        = i + (l.map (fun q =>
            if gradeMatch (lookupAnswer answers q.id) q.correct_answer then
              pointsOr1 q.points
            else 0)).sum := by
  intro l
  induction l with
  | nil => intro i; simp
  | cons q l ih =>
    intro i
    simp only [List.foldl_cons, List.map_cons, List.sum_cons]
    by_cases h : gradeMatch (lookupAnswer answers q.id) q.correct_answer = true
    · rw [if_pos h, if_pos h, ih]
      ring
    · rw [if_neg h, if_neg h, ih]
      ring

/-- The computed score is the sum over all questions of the weight of each
matched question (zero for unmatched or missing answers). -/
theorem computeScore_eq_sum (questions : List Question) (answers : Answers) :
    computeScore questions answers
      = (questions.map (fun q =>
          if gradeMatch (lookupAnswer answers q.id) q.correct_answer then
            pointsOr1 q.points
          else 0)).sum := by
  unfold computeScore
  rw [foldl_score_eq]
  ring

/-- Appending one question adds its weight exactly when it matches. -/
theorem computeScore_append (qs : List Question) (q : Question) (answers : Answers) :
    computeScore (qs ++ [q]) answers
      = computeScore qs answers
        + (if gradeMatch (lookupAnswer answers q.id) q.correct_answer then
            pointsOr1 q.points
          else 0) := by
  rw [computeScore_eq_sum, computeScore_eq_sum]
  simp

/-- Updating the rows with a given id commutes with looking the id up: the
lookup of the updated table returns the updated row. -/
theorem find?_map_update (l : List Attempt) (i : Nat) (g : Attempt → Attempt)
    (hg : ∀ a, (g a).id = a.id) :
    (l.map (fun a => if a.id == i then g a else a)).find? (fun a => a.id == i)
      = (l.find? (fun a => a.id == i)).map g := by
  induction l with
  | nil => rfl
  | cons a l ih =>
    simp only [List.map_cons]
    by_cases h : (a.id == i) = true
    · rw [if_pos h]
      rw [@List.find?_cons_of_pos _ (fun x => x.id == i) (g a) _
        (by show ((g a).id == i) = true; rw [hg a]; exact h)]
      rw [@List.find?_cons_of_pos _ (fun x => x.id == i) a _ h]
      rfl
    · rw [if_neg h]
      rw [@List.find?_cons_of_neg _ (fun x => x.id == i) a _ h]
      rw [@List.find?_cons_of_neg _ (fun x => x.id == i) a _ h]
      exact ih

/-- The `RETURNING` row of the submission update. -/
theorem submitAttempt_row (db : DB) (i : Nat) (ans : Answers) (s : Int) (now : Nat) :
    (submitAttempt db i ans s now).2
      = (findAttempt db i).map (fun a =>
          { a with answers := some ans, score := some s, submitted_at := some now }) :=
  find?_map_update db.attempts i _ (fun _ => rfl)

/-- The `RETURNING` row of the manual score update. -/
theorem updateAttemptScore_row (db : DB) (i : Nat) (s : Int) :
    (updateAttemptScore db i s).2
      = (findAttempt db i).map (fun a => { a with score := some s }) :=
  find?_map_update db.attempts i _ (fun _ => rfl)

/-- Evaluation of the attempt-with-limit join when both rows exist. -/
theorem getAttemptWithQuizLimit_eq (db : DB) (a : Attempt) (quiz : Quiz)
    (ha : findAttempt db a.id = some a) (hq : findQuiz db a.quiz_id = some quiz) :
    getAttemptWithQuizLimit db a.id = some (a.start_time, quiz.time_limit, a.quiz_id) := by
  unfold getAttemptWithQuizLimit
  rw [ha]
  simp only [hq]

/-- Evaluation of the submission controller once the join row is known. -/
theorem submitQuizAttempt_eval (db : DB) (i : Nat) (answers : Answers) (now : Nat)
    (st : Nat) (tl : Option Int) (qid : Nat)
    (hget : getAttemptWithQuizLimit db i = some (st, tl, qid)) :
    submitQuizAttempt db i answers now =
      if truthyInt tl && decide (tl.getD 0 * 60000 < (now : Int) - (st : Int)) then
        (SubmitResult.timeLimitExceeded, db)
      else
        (SubmitResult.submitted
          ((submitAttempt db i answers
            (computeScore (getQuestionsByQuizId db qid) answers) now).2),
         (submitAttempt db i answers
            (computeScore (getQuestionsByQuizId db qid) answers) now).1) := by
  unfold submitQuizAttempt
  rw [hget]

/-- Evaluation of the start controller once the quiz row is known. -/
theorem startQuizAttempt_eval (db : DB) (quizId userId now newId : Nat) (quiz : Quiz)
    (hq : findQuiz db quizId = some quiz) :
    startQuizAttempt db quizId userId now newId =
      if truthyNat quiz.attempts_allowed
          && decide (quiz.attempts_allowed.getD 0 ≤ countAttemptsByUser db userId quizId) then
        (StartResult.quotaExceeded, db)
      else
        (StartResult.started
          { id := newId, quiz_id := quizId, user_id := userId, start_time := now,
            submitted_at := none, answers := none, score := none },
         { db with attempts := db.attempts ++
            [{ id := newId, quiz_id := quizId, user_id := userId, start_time := now,
               submitted_at := none, answers := none, score := none }] }) := by
  unfold startQuizAttempt
  rw [hq]
  rfl

/-- Evaluation of the manual grading controller on a present score and an
existing attempt. -/
theorem gradeAttempt_some_found (db : DB) (i : Nat) (s : Int) (a : Attempt)
    (ha : findAttempt db i = some a) :
    gradeAttempt db i (some s)
      = (GradeResult.updated { a with score := some s }, (updateAttemptScore db i s).1) := by
  have hrow : (updateAttemptScore db i s).2 = some { a with score := some s } := by
    rw [updateAttemptScore_row, ha]
    rfl
  unfold gradeAttempt
  simp only [hrow]

/-! ### Claim theorems -/

/-- Claim C1 (code defect, evaluated at the failing input): submission is
not a one-way transition in the code.  On a state whose only attempt already
has `submitted_at = some 1000`, a second submit call succeeds again and
overwrites `submitted_at`, `answers` and `score` — neither the controller
nor the update statement guards on `submitted_at`, so a second successful
`submitted_at` write occurs on the same attempt. -/
theorem resubmission_overwrites_submission :
    (submitQuizAttempt
        { quizzes := [{ id := 1, title := "Quiz", time_limit := none, attempts_allowed := none }],
          questions := [{ id := 10, quiz_id := 1, correct_answer := Jval.str "B", points := some 1 }],
          attempts := [
            { id := 5, quiz_id := 1, user_id := 7, start_time := 0, submitted_at := some 1000, answers := some [(10, Jval.str "B")], score := some 1 }],
          users := [{ id := 7, username := "alice" }] }
        5 [(10, Jval.str "A")] 2000).1
      = SubmitResult.submitted (some
          { id := 5, quiz_id := 1, user_id := 7, start_time := 0, submitted_at := some 2000, answers := some [(10, Jval.str "A")], score := some 0 }) := by
  decide

/-- Claim C2 counterexample: a quiz whose `time_limit` is non-null but
explicitly 0, with an attempt submitted 1000 minutes after its start, is not
rejected — the submission succeeds and writes the row, contradicting the
claim for this non-null `time_limit`. -/
theorem submit_with_zero_limit_not_rejected :
    (submitQuizAttempt
        { quizzes := [{ id := 1, title := "Q", time_limit := some 0, attempts_allowed := none }],
          questions := [],
          attempts := [
            { id := 5, quiz_id := 1, user_id := 7, start_time := 0, submitted_at := none, answers := none, score := none }],
          users := [] }
        5 [] 60000000).1
      = SubmitResult.submitted (some
          { id := 5, quiz_id := 1, user_id := 7, start_time := 0, submitted_at := some 60000000, answers := some [], score := some 0 }) := by
  decide

/-- Claim C2 (amended): for a quiz with a non-null, non-zero `time_limit`,
elapsed time over the limit makes the submission fail with
TimeLimitExceeded and leaves the state untouched; when `time_limit` is
unset or zero the check is skipped and submission of an existing attempt
succeeds, writing `answers`, the computed score, and `submitted_at`. -/
theorem submit_time_limit_enforced (db : DB) (a : Attempt) (quiz : Quiz)
    (answers : Answers) (now : Nat)
    (ha : findAttempt db a.id = some a)
    (hq : findQuiz db a.quiz_id = some quiz) :
    (∀ t : Int, quiz.time_limit = some t → t ≠ 0 →
        t * 60000 < (now : Int) - (a.start_time : Int) →
        submitQuizAttempt db a.id answers now = (SubmitResult.timeLimitExceeded, db))
    ∧ ((quiz.time_limit = none ∨ quiz.time_limit = some 0) →
        submitQuizAttempt db a.id answers now
          = (SubmitResult.submitted (some
              { a with
                  answers := some answers,
                  score := some (computeScore (getQuestionsByQuizId db a.quiz_id) answers),
                  submitted_at := some now }),
             (submitAttempt db a.id answers
               (computeScore (getQuestionsByQuizId db a.quiz_id) answers) now).1)) := by
  have hget := getAttemptWithQuizLimit_eq db a quiz ha hq
  have heval := submitQuizAttempt_eval db a.id answers now a.start_time quiz.time_limit a.quiz_id hget
  constructor
  · intro t ht hne hlt
    have hcond : (truthyInt (some t)
        && decide ((some t).getD 0 * 60000 < (now : Int) - (a.start_time : Int))) = true := by
      simp only [truthyInt, Option.getD_some, Bool.and_eq_true, bne_iff_ne, ne_eq,
        decide_eq_true_eq]
      exact ⟨hne, hlt⟩
    rw [heval, ht, if_pos hcond]
  · intro hcase
    have hfalse : truthyInt quiz.time_limit = false := by
      rcases hcase with h | h <;> simp [h, truthyInt]
    have hrow : (submitAttempt db a.id answers
        (computeScore (getQuestionsByQuizId db a.quiz_id) answers) now).2
        = some
          { a with
              answers := some answers,
              score := some (computeScore (getQuestionsByQuizId db a.quiz_id) answers),
              submitted_at := some now } := by
      rw [submitAttempt_row, ha]
      rfl
    rw [heval, if_neg (by simp [hfalse]), hrow]

/-- Claim C2 witness: a concrete over-limit submission, rejected by the
amended theorem. -/
theorem submit_time_limit_enforced_witness :
    submitQuizAttempt
        { quizzes := [{ id := 1, title := "Q", time_limit := some 2, attempts_allowed := none }],
          questions := [],
          attempts := [
            { id := 5, quiz_id := 1, user_id := 7, start_time := 0, submitted_at := none, answers := none, score := none }],
          users := [] } 5 [] 120001
      = (SubmitResult.timeLimitExceeded,
         { quizzes := [{ id := 1, title := "Q", time_limit := some 2, attempts_allowed := none }],
           questions := [],
           attempts := [
             { id := 5, quiz_id := 1, user_id := 7, start_time := 0, submitted_at := none, answers := none, score := none }],
           users := [] }) :=
  (submit_time_limit_enforced
      { quizzes := [{ id := 1, title := "Q", time_limit := some 2, attempts_allowed := none }],
        questions := [],
        attempts := [
          { id := 5, quiz_id := 1, user_id := 7, start_time := 0, submitted_at := none, answers := none, score := none }],
        users := [] }
      { id := 5, quiz_id := 1, user_id := 7, start_time := 0, submitted_at := none, answers := none, score := none }
      { id := 1, title := "Q", time_limit := some 2, attempts_allowed := none }
      [] 120001 rfl rfl).1 2 rfl (by decide) (by decide)

/-- Claim C3: with `attempts_allowed = N` (non-null, non-zero) and an
existing per-user attempt count of N — counted regardless of submission
status — the next start call fails with QuotaExceeded, leaves the state
unchanged, and the count stays N; with `attempts_allowed` null or 0 the
start always succeeds and creates the new row. -/
theorem start_quota_enforced (db : DB) (quiz : Quiz) (userId now newId : Nat)
    (hq : findQuiz db quiz.id = some quiz) :
    (∀ N : Nat, quiz.attempts_allowed = some N → N ≠ 0 →
        countAttemptsByUser db userId quiz.id = N →
        startQuizAttempt db quiz.id userId now newId = (StartResult.quotaExceeded, db)
        ∧ countAttemptsByUser (startQuizAttempt db quiz.id userId now newId).2 userId quiz.id = N)
    ∧ ((quiz.attempts_allowed = none ∨ quiz.attempts_allowed = some 0) →
        (startQuizAttempt db quiz.id userId now newId).1
          = StartResult.started
              { id := newId, quiz_id := quiz.id, user_id := userId, start_time := now,
                submitted_at := none, answers := none, score := none }) := by
  have heval := startQuizAttempt_eval db quiz.id userId now newId quiz hq
  constructor
  · intro N hN hNe hcount
    have hcond : (truthyNat quiz.attempts_allowed
        && decide (quiz.attempts_allowed.getD 0 ≤ countAttemptsByUser db userId quiz.id)) = true := by
      rw [hN]
      simp only [truthyNat, Option.getD_some, Bool.and_eq_true, bne_iff_ne, ne_eq,
        decide_eq_true_eq]
      exact ⟨hNe, by omega⟩
    have hres : startQuizAttempt db quiz.id userId now newId = (StartResult.quotaExceeded, db) := by
      rw [heval, if_pos hcond]
    exact ⟨hres, by rw [hres]; exact hcount⟩
  · intro hcase
    have hfalse : truthyNat quiz.attempts_allowed = false := by
      rcases hcase with h | h <;> simp [h, truthyNat]
    rw [heval, if_neg (by simp [hfalse])]

/-- Claim C3 witness: a user with two attempts (one of them unsubmitted) on
a quiz allowing two is rejected on the third start, and the state is
unchanged. -/
theorem start_quota_enforced_witness :
    startQuizAttempt
        { quizzes := [{ id := 1, title := "Q", time_limit := none, attempts_allowed := some 2 }],
          questions := [],
          attempts := [
            { id := 1, quiz_id := 1, user_id := 7, start_time := 0, submitted_at := none, answers := none, score := none },
            { id := 2, quiz_id := 1, user_id := 7, start_time := 5, submitted_at := some 9, answers := some [], score := some 0 }],
          users := [] } 1 7 100 3
      = (StartResult.quotaExceeded,
         { quizzes := [{ id := 1, title := "Q", time_limit := none, attempts_allowed := some 2 }],
           questions := [],
           attempts := [
             { id := 1, quiz_id := 1, user_id := 7, start_time := 0, submitted_at := none, answers := none, score := none },
             { id := 2, quiz_id := 1, user_id := 7, start_time := 5, submitted_at := some 9, answers := some [], score := some 0 }],
           users := [] }) :=
  ((start_quota_enforced
      { quizzes := [{ id := 1, title := "Q", time_limit := none, attempts_allowed := some 2 }],
        questions := [],
        attempts := [
          { id := 1, quiz_id := 1, user_id := 7, start_time := 0, submitted_at := none, answers := none, score := none },
          { id := 2, quiz_id := 1, user_id := 7, start_time := 5, submitted_at := some 9, answers := some [], score := some 0 }],
        users := [] }
      { id := 1, title := "Q", time_limit := none, attempts_allowed := some 2 }
      7 100 3 rfl).1 2 rfl (by decide) (by decide)).1

/-- Claim C4: the score is the sum over all questions of the question
weight (`points`, defaulting to 1 when unset) for each matched question; a
missing answer never matches and contributes zero; and on the concrete
two-question quiz of the claim the two answer sets score 3 and 0. -/
theorem autograde_score_spec :
    (∀ c : Jval, gradeMatch none c = false)
    ∧ pointsOr1 none = 1
    ∧ (∀ (questions : List Question) (answers : Answers),
        computeScore questions answers
          = (questions.map (fun q =>
              if gradeMatch (lookupAnswer answers q.id) q.correct_answer then
                pointsOr1 q.points
              else 0)).sum)
    ∧ computeScore
        [{ id := 1, quiz_id := 1, correct_answer := Jval.str "B", points := some 1 },
         { id := 2, quiz_id := 1, correct_answer := Jval.arr ["X", "Y"], points := some 2 }]
        [(1, Jval.str "B"), (2, Jval.arr ["Y", "X"])] = 3
    ∧ computeScore
        [{ id := 1, quiz_id := 1, correct_answer := Jval.str "B", points := some 1 },
         { id := 2, quiz_id := 1, correct_answer := Jval.arr ["X", "Y"], points := some 2 }]
        [(1, Jval.str "A"), (2, Jval.arr ["X"])] = 0 :=
  ⟨gradeMatch_none, rfl, computeScore_eq_sum, by decide, by decide⟩

/-- Claim C5: on non-array values the grading comparison of serialized
forms decides exactly structural equality — the serialization separates
types (no false positives, e.g. the string True never matches the boolean
true) and identifies equal values (no false negatives). -/
theorem scalar_grading_matches_iff_equal (a c : Jval)
    (ha : isArr a = false) (hc : isArr c = false) :
    gradeMatch (some a) c = true ↔ a = c := by
  rw [gradeMatch_nonArr a c ha]
  constructor
  · intro h
    exact stringify_inj_nonArr a c ha hc (eq_of_beq h)
  · intro h
    rw [h]
    exact beq_self_eq_true _

/-- Claim C5 witness: instantiated at the string True versus the boolean
true. -/
theorem scalar_grading_matches_iff_equal_witness :
    (gradeMatch (some (Jval.str "True")) (Jval.bool true) = true
      ↔ Jval.str "True" = Jval.bool true) :=
  scalar_grading_matches_iff_equal (Jval.str "True") (Jval.bool true) rfl rfl

/-- Claim C6 counterexample: a negative `newScore` of −5 is accepted by the
manual grade override — the call returns the updated attempt and the stored
score becomes −5, instead of failing with InvalidInput and leaving the score
unchanged as the claim requires. -/
theorem negative_grade_not_rejected :
    (gradeAttempt
        { quizzes := [{ id := 1, title := "Q", time_limit := none, attempts_allowed := none }],
          questions := [],
          attempts := [
            { id := 5, quiz_id := 1, user_id := 7, start_time := 0, submitted_at := some 1000, answers := some [], score := some 5 }],
          users := [] } 5 (some (-5))).1
      = GradeResult.updated
          { id := 5, quiz_id := 1, user_id := 7, start_time := 0, submitted_at := some 1000, answers := some [], score := some (-5) } := by
  decide

/-- Claim C6 (amended): the manual grade override fails with InvalidInput
exactly when `newScore` is absent (undefined or null, modelled as `none`)
and the state is unchanged; any present score — negative scores included —
is accepted and overwrites the stored score of an existing attempt. -/
theorem grade_override_validation (db : DB) (attemptId : Nat) :
    gradeAttempt db attemptId none = (GradeResult.invalidInput, db)
    ∧ (∀ (s : Int) (a : Attempt), findAttempt db attemptId = some a →
        (gradeAttempt db attemptId (some s)).1
          = GradeResult.updated { a with score := some s }) := by
  refine ⟨rfl, ?_⟩
  intro s a ha
  rw [gradeAttempt_some_found db attemptId s a ha]

/-- Claim C6 witness: setting score 7 on an existing attempt persists 7. -/
theorem grade_override_validation_witness :
    (gradeAttempt
        { quizzes := [], questions := [],
          attempts := [
            { id := 5, quiz_id := 1, user_id := 7, start_time := 0, submitted_at := some 1000, answers := some [], score := some 5 }],
          users := [] } 5 (some 7)).1
      = GradeResult.updated
          { id := 5, quiz_id := 1, user_id := 7, start_time := 0, submitted_at := some 1000, answers := some [], score := some 7 } :=
  (grade_override_validation
      { quizzes := [], questions := [],
        attempts := [
          { id := 5, quiz_id := 1, user_id := 7, start_time := 0, submitted_at := some 1000, answers := some [], score := some 5 }],
        users := [] } 5).2 7
    { id := 5, quiz_id := 1, user_id := 7, start_time := 0, submitted_at := some 1000, answers := some [], score := some 5 } rfl

/-- Claim C7 counterexample: a state whose only attempt is unsubmitted
(`submitted_at = none`) still produces a leaderboard row and is counted by
the per-quiz analytics aggregate — those two read paths do not filter on
`submitted_at IS NOT NULL`. -/
theorem unsubmitted_attempt_in_leaderboard :
    getQuizLeaderboard
        { quizzes := [{ id := 1, title := "Q", time_limit := none, attempts_allowed := none }],
          questions := [],
          attempts := [
            { id := 5, quiz_id := 1, user_id := 7, start_time := 0, submitted_at := none, answers := none, score := none }],
          users := [{ id := 7, username := "alice" }] } 1
      = [{ username := "alice", score := none }]
    ∧ getQuizAnalytics
        { quizzes := [{ id := 1, title := "Q", time_limit := none, attempts_allowed := none }],
          questions := [],
          attempts := [
            { id := 5, quiz_id := 1, user_id := 7, start_time := 0, submitted_at := none, answers := none, score := none }],
          users := [{ id := 7, username := "alice" }] } 1
      = { total_attempts := 1, avg_score := none } :=
  ⟨by decide, by decide⟩

/-- Claim C7 (amended): the per-user report and the own-attempts listing
return only rows with non-null `submitted_at`; the per-quiz leaderboard and
analytics, by contrast, range over all attempts of the quiz. -/
theorem user_reports_only_submitted (db : DB) (userId : Nat) :
    (∀ r ∈ getUserReport db userId, r.submitted_at ≠ none)
    ∧ (∀ p ∈ getAttemptsByUser db userId, p.1.submitted_at ≠ none) := by
  constructor
  · intro r hr
    unfold getUserReport at hr
    rw [List.mem_filterMap] at hr
    obtain ⟨a, ha, hmap⟩ := hr
    rw [List.mem_filter] at ha
    have hsome : a.submitted_at.isSome = true := by
      have hcond := ha.2
      simp only [Bool.and_eq_true] at hcond
      exact hcond.2
    rw [Option.map_eq_some'] at hmap
    obtain ⟨q, hq1, hq2⟩ := hmap
    rw [← hq2]
    show a.submitted_at ≠ none
    exact Option.ne_none_iff_isSome.mpr hsome
  · intro p hp
    unfold getAttemptsByUser at hp
    rw [List.mem_map] at hp
    obtain ⟨a, ha, hmap⟩ := hp
    rw [List.mem_filter] at ha
    have hsome : a.submitted_at.isSome = true := by
      have hcond := ha.2
      simp only [Bool.and_eq_true] at hcond
      exact hcond.2
    rw [← hmap]
    show a.submitted_at ≠ none
    exact Option.ne_none_iff_isSome.mpr hsome

/-- Claim C7 witness: the report row of a submitted attempt, obtained from
the amended theorem at a concrete state. -/
theorem user_reports_only_submitted_witness :
    ReportRow.submitted_at
        { quiz := "Q", score := some 1, submitted_at := some 9, quiz_id := 1,
          total_questions := 0 } ≠ none :=
  (user_reports_only_submitted
      { quizzes := [{ id := 1, title := "Q", time_limit := none, attempts_allowed := none }],
        questions := [],
        attempts := [
          { id := 5, quiz_id := 1, user_id := 7, start_time := 0, submitted_at := some 9, answers := some [], score := some 1 }],
        users := [] } 7).1
    { quiz := "Q", score := some 1, submitted_at := some 9, quiz_id := 1,
      total_questions := 0 } (by decide)

/-- Claim C8: multi-select grading is order-independent — for array-valued
submitted and correct answers, the match result is invariant under any
permutation of the submitted array, and both orders of the concrete example
grade as correct. -/
theorem multiselect_order_independent :
    (∀ (u v c : List String), u.Perm v →
        gradeMatch (some (Jval.arr u)) (Jval.arr c)
          = gradeMatch (some (Jval.arr v)) (Jval.arr c))
    ∧ gradeMatch (some (Jval.arr ["A", "B"])) (Jval.arr ["A", "B"]) = true
    ∧ gradeMatch (some (Jval.arr ["B", "A"])) (Jval.arr ["A", "B"]) = true := by
  refine ⟨?_, by decide, by decide⟩
  intro u v c h
  show (stringify (Jval.arr (sortStrings u)) == stringify (Jval.arr (sortStrings c)))
      = (stringify (Jval.arr (sortStrings v)) == stringify (Jval.arr (sortStrings c)))
  rw [sortStrings_eq_of_perm h]

/-- Claim C8 witness: the permutation invariance applied to the two orders
of the concrete example. -/
theorem multiselect_order_independent_witness :
    gradeMatch (some (Jval.arr ["B", "A"])) (Jval.arr ["A", "B"])
      = gradeMatch (some (Jval.arr ["A", "B"])) (Jval.arr ["A", "B"]) :=
  multiselect_order_independent.1 ["B", "A"] ["A", "B"] ["A", "B"] (List.Perm.swap "A" "B" [])

/-- Claim C9: a `time_limit` explicitly set to 0 skips the elapsed-time
check entirely — submission of an existing attempt succeeds at every `now`,
however much time has passed, exactly as with no time limit. -/
theorem zero_time_limit_skips_check (db : DB) (a : Attempt) (quiz : Quiz)
    (answers : Answers) (now : Nat)
    (ha : findAttempt db a.id = some a)
    (hq : findQuiz db a.quiz_id = some quiz)
    (ht : quiz.time_limit = some 0) :
    (submitQuizAttempt db a.id answers now).1
      = SubmitResult.submitted (some
        { a with
            answers := some answers,
            score := some (computeScore (getQuestionsByQuizId db a.quiz_id) answers),
            submitted_at := some now }) := by
  have hget := getAttemptWithQuizLimit_eq db a quiz ha hq
  have heval := submitQuizAttempt_eval db a.id answers now a.start_time quiz.time_limit a.quiz_id hget
  have hrow : (submitAttempt db a.id answers
      (computeScore (getQuestionsByQuizId db a.quiz_id) answers) now).2
      = some
        { a with
            answers := some answers,
            score := some (computeScore (getQuestionsByQuizId db a.quiz_id) answers),
            submitted_at := some now } := by
    rw [submitAttempt_row, ha]
    rfl
  rw [heval, if_neg (by simp [ht, truthyInt]), hrow]

/-- Claim C9 witness: a zero-limit quiz accepts a submission a full day
after the start. -/
theorem zero_time_limit_skips_check_witness :
    (submitQuizAttempt
        { quizzes := [{ id := 1, title := "Q", time_limit := some 0, attempts_allowed := none }],
          questions := [],
          attempts := [
            { id := 6, quiz_id := 1, user_id := 7, start_time := 0, submitted_at := none, answers := none, score := none }],
          users := [] } 6 [] 86400000).1
      = SubmitResult.submitted (some
          { id := 6, quiz_id := 1, user_id := 7, start_time := 0, submitted_at := some 86400000, answers := some [], score := some 0 }) :=
  zero_time_limit_skips_check
    { quizzes := [{ id := 1, title := "Q", time_limit := some 0, attempts_allowed := none }],
      questions := [],
      attempts := [
        { id := 6, quiz_id := 1, user_id := 7, start_time := 0, submitted_at := none, answers := none, score := none }],
      users := [] }
    { id := 6, quiz_id := 1, user_id := 7, start_time := 0, submitted_at := none, answers := none, score := none }
    { id := 1, title := "Q", time_limit := some 0, attempts_allowed := none }
    [] 86400000 rfl rfl rfl

/-- Claim C10: a question whose `points` is explicitly 0 adds the default
weight 1 to the score when its answer matches — the default applies to any
falsy `points` value, not only an absent one. -/
theorem zero_points_adds_default_one (qs : List Question) (q : Question)
    (answers : Answers) (hp : q.points = some 0)
    (hm : gradeMatch (lookupAnswer answers q.id) q.correct_answer = true) :
    computeScore (qs ++ [q]) answers = computeScore qs answers + 1 := by
  rw [computeScore_append, if_pos hm, hp]
  rfl

/-- Claim C10 witness: a single matched question with `points = 0` scores
the default 1. -/
theorem zero_points_adds_default_one_witness :
    computeScore
        ([] ++ [{ id := 1, quiz_id := 1, correct_answer := Jval.str "A", points := some 0 }])
        [(1, Jval.str "A")]
      = computeScore [] [(1, Jval.str "A")] + 1 :=
  zero_points_adds_default_one []
    { id := 1, quiz_id := 1, correct_answer := Jval.str "A", points := some 0 }
    [(1, Jval.str "A")] rfl (by decide)

end QuizPlatform
